import Mathlib

/-!
Verification of the launchpad entity-derivation pipeline
(src/derive/src/derive_entity.rs, src/derive/src/lib.rs,
src/utilities/src/iterable.rs) against its specification.

The embedding mirrors the Rust source shallowly:

* syn types (`DeriveInput`, `Data`, `Fields`, `Field`, `Type`) become
  explicit Lean inductives carrying exactly the information the derive
  logic inspects;
* darling attribute parsing (`args::DeriveInputArgs`, `args::Key`,
  `args::Column`) is modelled by recording, on each field / input, the
  outcome darling would produce for its attribute arguments;
* Rust `HashMap` values (`field_columns` in `DeriveEntity::try_from`,
  and the map returned by `utilities::iterable::index`) are modelled as
  association lists for lookups, together with an explicit iteration
  order parameter: `std::collections::HashMap` iteration order is
  unspecified (randomised per process by `RandomState`), so every
  consumer of a map's iteration order takes the order as an argument,
  constrained in theorems to be a permutation of the map's keys;
* the emitted `proc_macro2::TokenStream` is modelled structurally: the
  generated trait, the pool-backed impl and the transaction-backed impl
  become records whose fields are exactly the varying ingredients of the
  quoted token templates (names, argument lists, query strings, bind
  lists, fetch mode, execution handle, lock acquisition).
-/

/-- Model of `syn::Type` restricted to what the derive logic inspects.
`path lc segs args` stands for `syn::Type::Path` with leading-colon flag
`lc`, segment identifier strings `segs`, and `args = true` iff some
segment carries generic arguments.  `syn::Path::get_ident` returns an
identifier exactly for a single-segment path with no leading colon and
no generic arguments.  Every other type shape is collapsed into `other`
with a textual tag, since `derive_entity.rs` only ever clones such types
verbatim. -/
inductive Ty where
  | path (leadingColon : Bool) (segments : List String) (hasArgs : Bool)
  | other (tag : String)
deriving DecidableEq

/-- Model of `syn::Path::get_ident` lifted to `Ty`: some identifier iff
the type is a path with no leading colon, exactly one segment and no
generic arguments. -/
def Ty.getIdent : Ty → Option String
  | Ty.path leadingColon segments hasArgs =>
      if leadingColon = false ∧ hasArgs = false then
        match segments with
        | [s] => some s
        | _ => none
      else none
  | Ty.other _ => none

/-- The type `str`, produced in the source by `parse_quote!(str)`. -/
def strTy : Ty := Ty.path false ["str"] false

/-- Result of darling parsing the `#[key(...)]` attribute arguments of a
field (`args::Key::from_field`): either the arguments are malformed and
darling returns an error, or they parse to an optional explicit key name
and an optional unique flag. -/
inductive KeyParse where
  | failed
  | parsed (name : Option String) (unique : Option Bool)
deriving DecidableEq

/-- State of the `#[column(...)]` attribute on a field, as seen by
darling's `args::Column::from_field`: no attribute at all, an attribute
whose arguments fail to parse (for example a missing or malformed `name`
argument), or a successfully parsed explicit column name. -/
inductive ColumnParse where
  | absent
  | malformed
  | named (name : String)
deriving DecidableEq

/-- Model of one `syn::Field`.  `ident` is `none` for positional (tuple)
fields.  `hasKeyAttr` records whether some attribute on the field has
path identifier `key` (the scan at lines 80-86 of derive_entity.rs);
`keyArgs` records what `args::Key::from_field` returns when invoked on
the field; `columnAttr` records the `#[column]` attribute state consumed
by `args::Column::from_field`. -/
structure RField where
  ident : Option String
  ty : Ty
  hasKeyAttr : Bool
  keyArgs : KeyParse
  columnAttr : ColumnParse
deriving DecidableEq

/-- Model of `syn::Fields`. -/
inductive Fields where
  | fnamed (fs : List RField)
  | funnamed (fs : List RField)
  | funit
deriving DecidableEq

/-- Model of `syn::Data`. -/
inductive Data where
  | dstruct (fields : Fields)
  | denum
  | dunion
deriving DecidableEq

/-- Model of `args::DeriveInputArgs`: the parsed `#[entity(...)]`
record-level arguments. -/
structure DeriveInputArgs where
  name : Option String
  table_name : Option String
deriving DecidableEq

/-- Model of `syn::DeriveInput`.  `argsOk` records whether the
`#[entity(...)]` attribute arguments themselves parse under darling
(independently of the shape check). -/
structure DeriveInput where
  ident : String
  data : Data
  argsOk : Bool
  args : DeriveInputArgs
deriving DecidableEq

/-- Decidable equality for `Except` results, so that the pipeline can be
evaluated on concrete inputs. -/
instance exceptDecEq {ε α : Type} [DecidableEq ε] [DecidableEq α] :
    DecidableEq (Except ε α)
  | Except.ok a, Except.ok b =>
      match decEq a b with
      | isTrue h => isTrue (h ▸ rfl)
      | isFalse h => isFalse (fun hc => h (Except.ok.inj hc))
  | Except.ok _, Except.error _ => isFalse (fun hc => Except.noConfusion hc)
  | Except.error _, Except.ok _ => isFalse (fun hc => Except.noConfusion hc)
  | Except.error a, Except.error b =>
      match decEq a b with
      | isTrue h => isTrue (h ▸ rfl)
      | isFalse h => isFalse (fun hc => h (Except.error.inj hc))

/-- The error enum `DeriveEntityError` of derive_entity.rs. -/
inductive DeriveEntityError where
  | darlingError
  | structRequired
  | fieldRequired
  | missingKeyName
deriving DecidableEq

/-- The struct `FieldColumn` of derive_entity.rs. -/
structure FieldColumn where
  field_name : String
  field_type : Ty
  column_name : String
deriving DecidableEq

/-- The struct `Key` of derive_entity.rs. -/
structure Key where
  name : String
  unique : Bool
  components : List FieldColumn
deriving DecidableEq

/-- The struct `DeriveEntity` of derive_entity.rs. -/
structure DeriveEntity where
  entity : String
  snake_name : Option String
  table_name : String
  _columns : List FieldColumn
  keys : List Key
deriving DecidableEq

/-- A raw per-field key tag as accumulated in the `pks` vector of
`DeriveEntity::try_from`: key name paired with the field's column and
its resolved unique flag. -/
abbrev PK := String × (FieldColumn × Bool)

/-- Model of `darling::FromField` for `args::Column` (attribute
`#[column]`, required `name` argument): a missing attribute and
malformed arguments both yield a darling error; otherwise the parsed
name. -/
def Column.fromField (f : RField) : Except Unit String :=
  match f.columnAttr with
  | ColumnParse.named n => Except.ok n
  | ColumnParse.absent => Except.error ()
  | ColumnParse.malformed => Except.error ()

/-- Model of `darling::FromDeriveInput` for `args::DeriveInputArgs`,
which is declared with `#[darling(supports(struct_named))]`: darling
rejects enums, unions, tuple structs and unit structs with a
`darling::Error`, and also errors when the `#[entity(...)]` arguments
are malformed; otherwise it returns the parsed record-level
arguments. -/
def DeriveInputArgs.fromDeriveInput (input : DeriveInput) : Except Unit DeriveInputArgs :=
  match input.data with
  | Data.dstruct (Fields.fnamed _) =>
      if input.argsOk then Except.ok input.args else Except.error ()
  | _ => Except.error ()

/-- The list of fields carried by a `Fields` value, in declaration
order. -/
def fieldsList : Fields → List RField
  | Fields.fnamed fs => fs
  | Fields.funnamed fs => fs
  | Fields.funit => []

/-- Association-list model of `std::collections::HashMap` insertion:
`insert` replaces the value of an existing key and otherwise adds the
binding.  Only lookups and the key multiset are meaningful; iteration
order is supplied separately. -/
def alInsert {V : Type} (m : List (String × V)) (k : String) (v : V) : List (String × V) :=
  if m.any (fun p => p.1 == k) then
    m.map (fun p => if p.1 == k then (k, v) else p)
  else m ++ [(k, v)]

/-- Association-list model of `HashMap` lookup. -/
def alLookup {V : Type} (m : List (String × V)) (k : String) : Option V :=
  (m.find? (fun p => p.1 == k)).map (fun p => p.2)

/-- The keys of the association-list map, in insertion order (used only
to constrain admissible iteration orders). -/
def alKeys {V : Type} (m : List (String × V)) : List String :=
  m.map (fun p => p.1)

/-- The `FieldColumn` built for one field in `field_columns`
(derive_entity.rs lines 134-149): the column name is the parsed
`#[column]` name when `args::Column::from_field` succeeds — its error is
discarded by `.ok()` — and the field's own identifier otherwise. -/
def mkFieldColumn (field_name : String) (f : RField) : FieldColumn :=
  { field_name := field_name
    field_type := f.ty
    column_name := ((Column.fromField f).toOption.map (fun n => n)).getD field_name }

/-- The loop body of the `try_fold` in `field_columns` (derive_entity.rs
lines 133-155): require the field identifier (`FieldRequired`
otherwise) and insert the field's `FieldColumn` under it. -/
def fcStep (mappings : List (String × FieldColumn)) (field : RField) :
    Except DeriveEntityError (List (String × FieldColumn)) :=
  match field.ident with
  | none => Except.error DeriveEntityError.fieldRequired
  | some field_name =>
      Except.ok (alInsert mappings field_name (mkFieldColumn field_name field))

/-- The function `field_columns` of derive_entity.rs: a `try_fold` over
the fields building the ident-keyed map, failing with `FieldRequired`
on a field without an identifier. -/
def field_columns (fields : Fields) : Except DeriveEntityError (List (String × FieldColumn)) :=
  (fieldsList fields).foldlM fcStep []

/-- The per-field body of the `pks` accumulation in
`DeriveEntity::try_from` (lines 77-102): fields without a `key`
attribute contribute nothing; a key-tagged field needs an identifier
(`MissingKeyName` otherwise), its `#[key]` arguments must parse
(darling error otherwise), and it contributes its key name (explicit or
defaulted to the field identifier), its `FieldColumn` from the map, and
its unique flag (defaulted to `false`). -/
def pkOfField (fcMap : List (String × FieldColumn)) (f : RField) :
    Except DeriveEntityError (Option PK) :=
  if f.hasKeyAttr = false then Except.ok none
  else
    match f.ident with
    | none => Except.error DeriveEntityError.missingKeyName
    | some f_ident =>
        match f.keyArgs with
        | KeyParse.failed => Except.error DeriveEntityError.darlingError
        | KeyParse.parsed keyName keyUnique =>
            let field_column := (alLookup fcMap f_ident).getD (mkFieldColumn f_ident f)
            let key_name := keyName.getD f_ident
            let key_unique := keyUnique.getD false
            Except.ok (some (key_name, (field_column, key_unique)))

/-- The full `pks` vector of `DeriveEntity::try_from`: per-field results
collected (failing fast on the first error) and flattened, preserving
field declaration order. -/
def pksOf (fcMap : List (String × FieldColumn)) (fields : Fields) :
    Except DeriveEntityError (List PK) := do
  let opts ← (fieldsList fields).mapM (pkOfField fcMap)
  Except.ok (opts.filterMap id)

/-- Model of `utilities::iterable::index` together with the consumption
of the resulting `HashMap` by `.into_iter()`: `into_group_map_by` puts
the values of each distinct key into a vector in encounter order, and
iterating the `HashMap` yields the groups in the unspecified order
`σ`.  Theorems constrain `σ` to be a permutation of the distinct keys
of `items`. -/
def indexGroups {V : Type} (items : List (String × V)) (σ : List String) :
    List (String × List V) :=
  σ.map (fun k => (k, (items.filter (fun p => p.1 == k)).map (fun p => p.2)))

/-- The distinct keys of a tag list in first-encounter order. -/
def firstSeen (ks : List String) : List String :=
  ks.foldl (fun acc k => if k ∈ acc then acc else acc ++ [k]) []

/-- The `keys` construction of `DeriveEntity::try_from` (lines
104-112): one `Key` per group of `index pks`, components in group order,
uniqueness the `any` of the grouped unique flags, groups enumerated in
the `HashMap` iteration order `keyOrd`. -/
def keysOf (pks : List PK) (keyOrd : List String) : List Key :=
  (indexGroups pks keyOrd).map
    (fun kv =>
      { name := kv.1
        unique := kv.2.any (fun p => p.2)
        components := kv.2.map (fun p => p.1) })

/-- The shape check plus darling extraction plus field and key-tag
extraction of `DeriveEntity::try_from` (lines 65-102), shared between
the claim statements: the struct check (`StructRequired` for enums and
unions), the darling `DeriveInputArgs` parse, the `field_columns` map,
and the `pks` tags, in the source's evaluation order. -/
def extracted (input : DeriveInput) :
    Except DeriveEntityError (DeriveInputArgs × (List (String × FieldColumn) × List PK)) := do
  let fields ←
    match input.data with
    | Data.dstruct fs => Except.ok fs
    | _ => Except.error DeriveEntityError.structRequired
  let args ←
    match DeriveInputArgs.fromDeriveInput input with
    | Except.ok a => Except.ok a
    | Except.error _ => Except.error DeriveEntityError.darlingError
  let fcMap ← field_columns fields
  let pks ← pksOf fcMap fields
  Except.ok (args, (fcMap, pks))

/-- The function `DeriveEntity::try_from` of derive_entity.rs.
`colOrd` is the iteration order of the `field_columns` map consumed by
`into_values()` (line 114), `keyOrd` the iteration order of the map
returned by `utilities::iterable::index` (line 104); both are
unspecified `HashMap` orders, constrained in theorems to permutations
of the respective key sets. -/
def DeriveEntity.tryFrom (input : DeriveInput) (colOrd keyOrd : List String) :
    Except DeriveEntityError DeriveEntity := do
  let parts ← extracted input
  Except.ok
    { entity := input.ident
      snake_name := parts.1.name
      table_name := parts.1.table_name.getD input.ident
      _columns := colOrd.filterMap (alLookup parts.2.1)
      keys := keysOf parts.2.2 keyOrd }

/-- The raw key tags of an input, when extraction succeeds. -/
def pksOfInput (input : DeriveInput) : Except DeriveEntityError (List PK) :=
  (extracted input).map (fun parts => parts.2.2)

/-- Delimiter characters that convert_case strips and treats as word
boundaries under its default boundary set. -/
def isDelim (c : Char) : Bool :=
  c == '_' || c == '-' || c == ' '

/-- Word splitter for `convert_case::Casing::to_case(Case::Snake)` over
identifier-like strings, with the crate's default boundaries:
delimiters (underscore, hyphen, space) are dropped; a word break is
inserted between a lowercase letter and a following uppercase letter,
and before the last uppercase letter of an uppercase run that is
followed by a lowercase letter (the acronym boundary).  The first
argument is the previous character, the second the reversed current
word, the third the remaining input. -/
def splitWordsAux : Option Char → List Char → List Char → List (List Char)
  | _, cur, [] => [cur.reverse]
  | prev, cur, c :: rest =>
    if isDelim c then cur.reverse :: splitWordsAux none [] rest
    else
      let boundary :=
        match prev with
        | some p =>
            (p.isLower && c.isUpper) ||
            (p.isUpper && c.isUpper &&
              (match rest with
               | n :: _ => n.isLower
               | [] => false))
        | none => false
      if boundary then cur.reverse :: splitWordsAux (some c) [c] rest
      else splitWordsAux (some c) (c :: cur) rest

/-- Model of `convert_case` snake-casing as used by
`DeriveEntity::entity_snake_name`: split into words, lowercase each,
join with underscores. -/
def toSnake (s : String) : String :=
  let ws := (splitWordsAux none [] s.toList).filter (fun w => w.isEmpty = false)
  String.intercalate ("_") (ws.map (fun w => String.mk (w.map Char.toLower)))

/-- The method `DeriveEntity::entity_snake_name`: snake-case of the
display-name override when given, of the entity identifier
otherwise. -/
def DeriveEntity.entity_snake_name (e : DeriveEntity) : String :=
  toSnake (e.snake_name.getD e.entity)

/-- The generated return type of a key operation: the quoted
`Result<Option<Ent>, sqlx::Error>` for unique keys and
`Result<Vec<Ent>, sqlx::Error>` otherwise. -/
inductive FnRtn where
  | optionalOf (ent : String)
  | vecOf (ent : String)
deriving DecidableEq

/-- One generated operation parameter: the token `name: &ty`.  The
borrow is uniform in the source template, so only the borrowed type is
recorded. -/
structure FnArg where
  name : String
  borrowed : Ty
deriving DecidableEq

/-- Model of Rust `str::ends_with` on identifier strings: suffix test on
the character sequence. -/
def endsWithStr (s suffix : String) : Bool :=
  suffix.toList.isSuffixOf s.toList

/-- The function `KeyFn::new::map_type`: a type that is a path whose
`get_ident` string ends with `String` becomes `str`; every other type
is cloned unchanged. -/
def map_type (ty : Ty) : Ty :=
  match ty with
  | Ty.path lc segs ar =>
      match Ty.getIdent (Ty.path lc segs ar) with
      | some s => if endsWithStr s ("String") then strTy else ty
      | none => ty
  | Ty.other t => Ty.other t

/-- The struct `KeyFn` of derive_entity.rs: the name, return type and
argument tokens of one generated key operation. -/
structure KeyFn where
  fn_name : String
  fn_rtn : FnRtn
  fn_args : List FnArg
deriving DecidableEq

/-- The constructor `KeyFn::new`: `find_<snake>_by_<key>` returning an
optional record for unique keys, `list_<snake>_by_<key>` returning a
vector otherwise; one argument per key component, named after the
field, typed as a borrow of the `map_type` image of the field type. -/
def KeyFn.new (entity : DeriveEntity) (key : Key) : KeyFn :=
  { fn_name :=
      if key.unique then
        "find_" ++ entity.entity_snake_name ++ "_by_" ++ key.name
      else
        "list_" ++ entity.entity_snake_name ++ "_by_" ++ key.name
    fn_rtn :=
      if key.unique then FnRtn.optionalOf entity.entity
      else FnRtn.vecOf entity.entity
    fn_args :=
      key.components.map
        (fun c => { name := c.field_name, borrowed := map_type c.field_type }) }

/-- The generated capability trait (`repo_trait`): trait name
`<Entity>Repo` and one method signature per key, in key order. -/
structure RepoTrait where
  trait_name : String
  fns : List KeyFn
deriving DecidableEq

/-- The function `repo_trait` of derive_entity.rs. -/
def repo_trait (entity : DeriveEntity) : RepoTrait :=
  { trait_name := entity.entity ++ "Repo"
    fns := entity.keys.map (KeyFn.new entity) }

/-- The `where` clause built inside `pg_impl` (lines 296-301):
`<col_i> = $<i+1>` for the 0-based enumeration of the key components,
joined with `and`. -/
def pgWhereClause (key : Key) : String :=
  String.intercalate (" and ")
    (key.components.enum.map (fun ic => ic.2.column_name ++ " = $" ++ toString (ic.1 + 1)))

/-- The query string built inside `pg_impl` (line 303). -/
def pgQuery (entity : DeriveEntity) (key : Key) : String :=
  "select * from " ++ entity.table_name ++ " where " ++ pgWhereClause key

/-- The `where` clause built inside `tx_impl` (lines 367-372), a
verbatim duplicate of the `pg_impl` construction. -/
def txWhereClause (key : Key) : String :=
  String.intercalate (" and ")
    (key.components.enum.map (fun ic => ic.2.column_name ++ " = $" ++ toString (ic.1 + 1)))

/-- The query string built inside `tx_impl` (line 374). -/
def txQuery (entity : DeriveEntity) (key : Key) : String :=
  "select * from " ++ entity.table_name ++ " where " ++ txWhereClause key

/-- The execution handle a generated method body fetches against:
`self` (the pool, in `pg_impl`) or the exclusively locked transaction
guard (`&mut **tx` after `self.lock().await`, in `tx_impl`). -/
inductive ExecHandle where
  | pgPool
  | lockedTx
deriving DecidableEq

/-- One generated implementation method: its signature, the embedded
query string, the bound field names in bind order, the fetch mode
(`fetch_optional` for unique keys, `fetch_all` otherwise), the handle
fetched against, and whether the body first acquires the transaction
lock. -/
structure ImplFn where
  sig : KeyFn
  query : String
  binds : List String
  fetchOptional : Bool
  handle : ExecHandle
  acquiresLock : Bool
deriving DecidableEq

/-- The method body generated for one key by `pg_impl`. -/
def pgImplFn (entity : DeriveEntity) (key : Key) : ImplFn :=
  { sig := KeyFn.new entity key
    query := pgQuery entity key
    binds := key.components.map (fun c => c.field_name)
    fetchOptional := key.unique
    handle := ExecHandle.pgPool
    acquiresLock := false }

/-- The method body generated for one key by `tx_impl`: the body first
runs `let mut tx = self.lock().await;` and fetches against the locked
guard. -/
def txImplFn (entity : DeriveEntity) (key : Key) : ImplFn :=
  { sig := KeyFn.new entity key
    query := txQuery entity key
    binds := key.components.map (fun c => c.field_name)
    fetchOptional := key.unique
    handle := ExecHandle.lockedTx
    acquiresLock := true }

/-- A generated `impl` block: trait name, implementing type, methods in
key order. -/
structure ImplBlock where
  trait_name : String
  for_type : Ty
  fns : List ImplFn
deriving DecidableEq

/-- The type `sqlx::Pool<sqlx::Postgres>` passed to `pg_impl` by
`TryFrom<DeriveEntity> for TokenStream`. -/
def pgPoolTy : Ty := Ty.path false ["sqlx", "Pool"] true

/-- The type `tokio::sync::Mutex<sqlx::Transaction<..., sqlx::Postgres>>`
that `tx_impl` implements the trait for. -/
def txMutexTy : Ty := Ty.path false ["tokio", "sync", "Mutex"] true

/-- The function `pg_impl` of derive_entity.rs. -/
def pg_impl (entity : DeriveEntity) (impl_ty : Ty) : ImplBlock :=
  { trait_name := entity.entity ++ "Repo"
    for_type := impl_ty
    fns := entity.keys.map (pgImplFn entity) }

/-- The function `tx_impl` of derive_entity.rs. -/
def tx_impl (entity : DeriveEntity) : ImplBlock :=
  { trait_name := entity.entity ++ "Repo"
    for_type := txMutexTy
    fns := entity.keys.map (txImplFn entity) }

/-- The full token stream assembled by
`TryFrom<DeriveEntity> for TokenStream`: trait, pool impl, transaction
impl, in that order. -/
structure Generated where
  trait : RepoTrait
  pg : ImplBlock
  tx : ImplBlock
deriving DecidableEq

/-- The body of `TryFrom<DeriveEntity> for TokenStream`. -/
def tokenStreamOf (entity : DeriveEntity) : Generated :=
  { trait := repo_trait entity
    pg := pg_impl entity pgPoolTy
    tx := tx_impl entity }

/-- The proc-macro entry point `derive_sql` of src/derive/src/lib.rs:
extraction followed by token synthesis (the source panics on extraction
errors; the model propagates them). -/
def derive_sql (input : DeriveInput) (colOrd keyOrd : List String) :
    Except DeriveEntityError Generated :=
  (DeriveEntity.tryFrom input colOrd keyOrd).map tokenStreamOf

/-- The Rust type `i64`. -/
def tyI64 : Ty := Ty.path false ["i64"] false

/-- The Rust type `String`, written as a bare identifier. -/
def tyStringBare : Ty := Ty.path false ["String"] false

/-- The Rust type `std::string::String`, the fully qualified spelling of
the standard owned string type. -/
def tyStringQualified : Ty := Ty.path false ["std", "string", "String"] false

/-- Example field `#[key] x: i64` with `unique = true`. -/
def fieldX : RField :=
  { ident := some ("x")
    ty := tyI64
    hasKeyAttr := true
    keyArgs := KeyParse.parsed none (some true)
    columnAttr := ColumnParse.absent }

/-- Example field `#[key] y: String` with no unique flag. -/
def fieldY : RField :=
  { ident := some ("y")
    ty := tyStringBare
    hasKeyAttr := true
    keyArgs := KeyParse.parsed none none
    columnAttr := ColumnParse.absent }

/-- Example declaration `struct User { #[key(unique)] x: i64, #[key] y: String }`
with no record-level overrides. -/
def exInput : DeriveInput :=
  { ident := "User"
    data := Data.dstruct (Fields.fnamed [fieldX, fieldY])
    argsOk := true
    args := { name := none, table_name := none } }

/-- Key names of a descriptor's key sequence, in emitted order. -/
def entityKeyNames (e : DeriveEntity) : List String :=
  e.keys.map Key.name

/-- Field identifiers of a descriptor's column sequence, in emitted
order. -/
def entityColumnNames (e : DeriveEntity) : List String :=
  e._columns.map FieldColumn.field_name

/-- The distinct key names among an input's key-tagged fields, in the
order each name is first encountered while scanning fields in
declaration order (the order the specification prescribes for key
groups). -/
def firstSeenKeyNames (input : DeriveInput) : Except DeriveEntityError (List String) :=
  (pksOfInput input).map (fun pks => firstSeen (pks.map Prod.fst))

/-- The declared field identifiers of an input, in declaration order. -/
def declaredFieldNames (input : DeriveInput) : List String :=
  match input.data with
  | Data.dstruct fs => (fieldsList fs).filterMap RField.ident
  | _ => []

/-- The key set of the `field_columns` map of an input, in insertion
order (declaration order of the fields), used to constrain admissible
`HashMap` iteration orders. -/
def fcKeysOfInput (input : DeriveInput) : Except DeriveEntityError (List String) :=
  (extracted input).map (fun parts => alKeys parts.2.1)

/-- Specification-side placeholder list for the SELECT template: the
i-th entry is the token sequence `<col_i> = $<i>` with a 1-based
positional index, in component order, following the words of the
specification. -/
def specPlaceholders : List String → Nat → List String
  | [], _ => []
  | c :: cs, i => (c ++ " = $" ++ toString i) :: specPlaceholders cs (i + 1)

/-- Specification-side SELECT statement for a table and a component
column list, following the words of the specification: `select * from
<table> where <col_1> = $1 and ... and <col_n> = $n`. -/
def specSelectQuery (table : String) (cols : List String) : String :=
  "select * from " ++ table ++ " where " ++
    String.intercalate (" and ") (specPlaceholders cols 1)

/-- Specification-side reading of a semantic type that denotes an owned
textual value: the standard owned string type, in bare or fully
qualified spelling. -/
def specDenotesOwnedText (ty : Ty) : Bool :=
  ty == Ty.path false ["String"] false
  || ty == Ty.path false ["std", "string", "String"] false
  || ty == Ty.path true ["std", "string", "String"] false
  || ty == Ty.path false ["alloc", "string", "String"] false
  || ty == Ty.path true ["alloc", "string", "String"] false

/-- The syntactic criterion `map_type` actually applies: the type is a
path on which `get_ident` succeeds (single segment, no leading colon,
no generic arguments) and the identifier string ends with `String`. -/
def bareIdentEndsString (ty : Ty) : Bool :=
  match Ty.getIdent ty with
  | some s => endsWithStr s ("String")
  | none => false

/-- Replacement of a malformed `#[column]` attribute by no attribute at
all, leaving every other part of the field unchanged. -/
def scrubMalformedColumn (f : RField) : RField :=
  match f.columnAttr with
  | ColumnParse.malformed =>
      { ident := f.ident
        ty := f.ty
        hasKeyAttr := f.hasKeyAttr
        keyArgs := f.keyArgs
        columnAttr := ColumnParse.absent }
  | _ => f

/-- Field-wise scrubbing of malformed `#[column]` attributes inside a
`Fields` value. -/
def Fields.scrub : Fields → Fields
  | Fields.fnamed fs => Fields.fnamed (fs.map scrubMalformedColumn)
  | Fields.funnamed fs => Fields.funnamed (fs.map scrubMalformedColumn)
  | Fields.funit => Fields.funit

/-- The input with every malformed `#[column]` attribute removed, as if
the column annotation had never been written. -/
def DeriveInput.scrub (input : DeriveInput) : DeriveInput :=
  { ident := input.ident
    data :=
      match input.data with
      | Data.dstruct fs => Data.dstruct fs.scrub
      | d => d
    argsOk := input.argsOk
    args := input.args }

/-- The `FieldColumn` extracted for `fieldX`. -/
def fcXcol : FieldColumn :=
  { field_name := "x", field_type := tyI64, column_name := "x" }

/-- The `FieldColumn` extracted for `fieldY`. -/
def fcYcol : FieldColumn :=
  { field_name := "y", field_type := tyStringBare, column_name := "y" }

/-- The raw key tags extracted from `exInput`, in declaration order. -/
def exPks : List PK :=
  [("x", (fcXcol, true)), ("y", (fcYcol, false))]

/-- The key group extracted from `exInput` for key name `y`. -/
def exKeyY : Key :=
  { name := "y", unique := false, components := [fcYcol] }

/-- The descriptor extracted from `exInput` when both `HashMap`
iteration orders happen to coincide with declaration order. -/
def exEntity : DeriveEntity :=
  { entity := "User"
    snake_name := none
    table_name := "User"
    _columns := [fcXcol, fcYcol]
    keys := [{ name := "x", unique := true, components := [fcXcol] }, exKeyY] }

/-- Two example columns of a shared composite key. -/
def fcA : FieldColumn :=
  { field_name := "a", field_type := tyI64, column_name := "a" }

/-- Second column of the shared composite key. -/
def fcB : FieldColumn :=
  { field_name := "b", field_type := tyI64, column_name := "b" }

/-- Raw tags of a composite key `k` whose first component is not marked
unique and whose second component is marked unique. -/
def c4pks : List PK :=
  [("k", (fcA, false)), ("k", (fcB, true))]

/-- A key-tagged field whose `#[key]` attribute specifies neither a name
nor a unique flag. -/
def c4f : RField :=
  { ident := some ("c")
    ty := tyI64
    hasKeyAttr := true
    keyArgs := KeyParse.parsed none none
    columnAttr := ColumnParse.absent }

/-- A positional field of a tuple struct. -/
def c6TupleField : RField :=
  { ident := none
    ty := tyI64
    hasKeyAttr := false
    keyArgs := KeyParse.parsed none none
    columnAttr := ColumnParse.absent }

/-- A tuple-only declaration `struct Pair(i64);`. -/
def c6TupleInput : DeriveInput :=
  { ident := "Pair"
    data := Data.dstruct (Fields.funnamed [c6TupleField])
    argsOk := true
    args := { name := none, table_name := none } }

/-- An enum declaration. -/
def c6EnumInput : DeriveInput :=
  { ident := "Kind"
    data := Data.denum
    argsOk := true
    args := { name := none, table_name := none } }

/-- A union declaration. -/
def c6UnionInput : DeriveInput :=
  { ident := "Raw"
    data := Data.dunion
    argsOk := true
    args := { name := none, table_name := none } }

/-- A key component whose declared type is the fully qualified owned
string type `std::string::String`. -/
def c9Component : FieldColumn :=
  { field_name := "s", field_type := tyStringQualified, column_name := "s" }

/-- A key group whose single component is `c9Component`. -/
def c9Key : Key :=
  { name := "s", unique := false, components := [c9Component] }

/-- A descriptor holding the key group `c9Key`. -/
def c9Entity : DeriveEntity :=
  { entity := "Doc"
    snake_name := none
    table_name := "Doc"
    _columns := [c9Component]
    keys := [c9Key] }

/-- A field carrying a `#[column]` attribute whose arguments fail to
parse. -/
def c10Field : RField :=
  { ident := some ("c")
    ty := tyI64
    hasKeyAttr := false
    keyArgs := KeyParse.parsed none none
    columnAttr := ColumnParse.malformed }

/-- A declaration containing `c10Field`. -/
def c10Input : DeriveInput :=
  { ident := "Cfg"
    data := Data.dstruct (Fields.fnamed [c10Field])
    argsOk := true
    args := { name := none, table_name := none } }

/-- Unfolding lemma: a successful extraction determines the descriptor
from the extracted parts and the two iteration orders. -/
theorem tryFrom_ok_parts {input : DeriveInput} {colOrd keyOrd : List String}
    {e : DeriveEntity}
    (h : DeriveEntity.tryFrom input colOrd keyOrd = Except.ok e) :
    ∃ parts, extracted input = Except.ok parts
      ∧ e = { entity := input.ident
              snake_name := parts.1.name
              table_name := parts.1.table_name.getD input.ident
              _columns := colOrd.filterMap (alLookup parts.2.1)
              keys := keysOf parts.2.2 keyOrd } := by
  cases hx : extracted input with
  | error err =>
      rw [DeriveEntity.tryFrom] at h
      simp [hx, Bind.bind, Except.bind] at h
  | ok parts =>
      refine ⟨parts, rfl, ?_⟩
      rw [DeriveEntity.tryFrom] at h
      simp [hx, Bind.bind, Except.bind] at h
      exact h.symm

/-- The grouping stage emits exactly one key per iterated key name. -/
theorem keysOf_length (pks : List PK) (keyOrd : List String) :
    (keysOf pks keyOrd).length = keyOrd.length := by
  simp [keysOf, indexGroups]

/-- Characterisation of `map_type` by the syntactic criterion it tests. -/
theorem map_type_eq_if (ty : Ty) :
    map_type ty = (if bareIdentEndsString ty then strTy else ty) := by
  cases ty with
  | other t => rfl
  | path lc segs ar =>
      cases lc <;> cases ar <;>
        first
        | rfl
        | (cases segs with
           | nil => rfl
           | cons s tail => cases tail <;> rfl)

/-- The enumerate-based clause builder equals the 1-based
specification placeholders, for every starting index. -/
theorem enumFrom_placeholders (cs : List FieldColumn) :
    ∀ i : Nat,
      (List.enumFrom i cs).map
          (fun ic => ic.2.column_name ++ " = $" ++ toString (ic.1 + 1))
        = specPlaceholders (cs.map FieldColumn.column_name) (i + 1) := by
  induction cs with
  | nil => intro i; rfl
  | cons c cs ih =>
      intro i
      simp only [List.enumFrom, List.map, specPlaceholders]
      exact congrArg (List.cons _) (ih (i + 1))

/-- Scrubbing a malformed column attribute does not change the
field-columns fold step. -/
theorem fcStep_scrub (acc : List (String × FieldColumn)) (f : RField) :
    fcStep acc (scrubMalformedColumn f) = fcStep acc f := by
  cases hc : f.columnAttr <;>
    simp [scrubMalformedColumn, hc, fcStep, mkFieldColumn, Column.fromField]

/-- Scrubbing a malformed column attribute does not change a field
key tag. -/
theorem pkOfField_scrub (fcMap : List (String × FieldColumn)) (f : RField) :
    pkOfField fcMap (scrubMalformedColumn f) = pkOfField fcMap f := by
  cases hc : f.columnAttr <;>
    simp [scrubMalformedColumn, hc, pkOfField, mkFieldColumn, Column.fromField]

/-- Scrubbing commutes out of the field-columns fold. -/
theorem foldlM_fcStep_scrub (fs : List RField) :
    ∀ acc, (fs.map scrubMalformedColumn).foldlM fcStep acc = fs.foldlM fcStep acc := by
  induction fs with
  | nil => intro acc; rfl
  | cons f fs ih =>
      intro acc
      simp only [List.map, List.foldlM, fcStep_scrub]
      cases hs : fcStep acc f with
      | error e => simp [Bind.bind, Except.bind]
      | ok acc2 => simp [Bind.bind, Except.bind, ih]

/-- Scrubbing commutes out of the key-tag traversal. -/
theorem mapM_pkOfField_scrub (fcMap : List (String × FieldColumn)) (fs : List RField) :
    (fs.map scrubMalformedColumn).mapM (pkOfField fcMap) = fs.mapM (pkOfField fcMap) := by
  induction fs with
  | nil => rfl
  | cons f fs ih =>
      rw [List.map_cons, List.mapM_cons, List.mapM_cons, pkOfField_scrub, ih]

/-- Scrubbing acts fieldwise on the field list. -/
theorem fieldsList_scrub (fs : Fields) :
    fieldsList fs.scrub = (fieldsList fs).map scrubMalformedColumn := by
  cases fs <;> rfl

/-- Scrubbing leaves the field-columns map unchanged. -/
theorem field_columns_scrub (fs : Fields) :
    field_columns fs.scrub = field_columns fs := by
  rw [field_columns, field_columns, fieldsList_scrub, foldlM_fcStep_scrub]

/-- Scrubbing leaves the key tags unchanged. -/
theorem pksOf_scrub (fcMap : List (String × FieldColumn)) (fs : Fields) :
    pksOf fcMap fs.scrub = pksOf fcMap fs := by
  rw [pksOf, pksOf, fieldsList_scrub, mapM_pkOfField_scrub]

/-- Scrubbing preserves the darling shape check and record-level
arguments. -/
theorem fromDeriveInput_scrub (input : DeriveInput) :
    DeriveInputArgs.fromDeriveInput input.scrub = DeriveInputArgs.fromDeriveInput input := by
  cases hd : input.data with
  | dstruct fs =>
      cases fs <;>
        simp [DeriveInput.scrub, DeriveInputArgs.fromDeriveInput, hd, Fields.scrub]
  | denum => simp [DeriveInput.scrub, DeriveInputArgs.fromDeriveInput, hd]
  | dunion => simp [DeriveInput.scrub, DeriveInputArgs.fromDeriveInput, hd]

/-- Scrubbing leaves the whole extraction unchanged. -/
theorem extracted_scrub (input : DeriveInput) :
    extracted input.scrub = extracted input := by
  cases hd : input.data with
  | dstruct fs =>
      have hdata : input.scrub.data = Data.dstruct fs.scrub := by
        simp [DeriveInput.scrub, hd]
      rw [extracted, extracted, hd, hdata, fromDeriveInput_scrub]
      cases DeriveInputArgs.fromDeriveInput input with
      | error e => rfl
      | ok a =>
          simp only [Bind.bind, Except.bind, field_columns_scrub]
          cases field_columns fs with
          | error e => rfl
          | ok fcMap => simp [pksOf_scrub]
  | denum =>
      have hdata : input.scrub.data = Data.denum := by simp [DeriveInput.scrub, hd]
      rw [extracted, extracted, hd, hdata]
      simp [Bind.bind, Except.bind]
  | dunion =>
      have hdata : input.scrub.data = Data.dunion := by simp [DeriveInput.scrub, hd]
      rw [extracted, extracted, hd, hdata]
      simp [Bind.bind, Except.bind]

/-- Claim C1 states — key groups appear in first-seen order of key names.
In the code the group sequence comes from iterating the `HashMap` built
by `utilities::iterable::index`, whose iteration order is unspecified:
for the two-key declaration `exInput` the reversed order is an
admissible iteration order (a permutation of the distinct key names),
and under it the emitted group order is the reverse of the first-seen
order, while within-group component order is untouched. -/
theorem c1_group_order_is_hashmap_order_not_first_seen :
    firstSeenKeyNames exInput = Except.ok ["x", "y"]
    ∧ List.Perm ["y", "x"] ["x", "y"]
    ∧ (DeriveEntity.tryFrom exInput ["x", "y"] ["y", "x"]).map entityKeyNames
        = Except.ok ["y", "x"]
    ∧ (["y", "x"] : List String) ≠ ["x", "y"] :=
  ⟨by decide, List.Perm.swap _ _ _, by decide, by decide⟩

/-- Claim C2 states — two runs on the identical declaration produce
byte-identical output.  The emitted operation order follows the key
`HashMap` iteration order, which `RandomState` randomises per process:
both declaration order and its reverse are admissible iteration orders
for `exInput`, and they yield different generated artifacts. -/
theorem c2_output_depends_on_hashmap_iteration_order :
    firstSeenKeyNames exInput = Except.ok ["x", "y"]
    ∧ List.Perm ["x", "y"] ["x", "y"]
    ∧ List.Perm ["y", "x"] ["x", "y"]
    ∧ derive_sql exInput ["x", "y"] ["x", "y"] ≠ derive_sql exInput ["x", "y"] ["y", "x"] :=
  ⟨by decide, List.Perm.refl _, List.Perm.swap _ _ _, by decide⟩

/-- Claim C7 states — the descriptor lists one FieldColumn per declared
field in declaration order.  The column sequence comes from
`into_values()` on the `field_columns` `HashMap`, so it follows the
unspecified map iteration order: for `exInput` the reversed order is
admissible and produces the columns in reverse declaration order. -/
theorem c7_columns_are_hashmap_order_not_declaration_order :
    declaredFieldNames exInput = ["x", "y"]
    ∧ fcKeysOfInput exInput = Except.ok ["x", "y"]
    ∧ List.Perm ["y", "x"] ["x", "y"]
    ∧ (DeriveEntity.tryFrom exInput ["y", "x"] ["x", "y"]).map entityColumnNames
        = Except.ok ["y", "x"]
    ∧ (["y", "x"] : List String) ≠ ["x", "y"] :=
  ⟨by decide, by decide, List.Perm.swap _ _ _, by decide, by decide⟩

/-- Claim C8: for every descriptor and key group, the transactional
implementation embeds a query string identical to the direct-store one
and binds the same parameters in the same order with the same fetch
mode; the two generated bodies differ only in the execution handle
(pool versus exclusively locked transaction guard) and in the
lock-acquisition step. -/
theorem c8_tx_and_pg_bodies_differ_only_in_handle_and_lock :
    ∀ (e : DeriveEntity) (k : Key),
      (txImplFn e k).query = (pgImplFn e k).query
      ∧ (txImplFn e k).sig = (pgImplFn e k).sig
      ∧ (txImplFn e k).binds = (pgImplFn e k).binds
      ∧ (txImplFn e k).fetchOptional = (pgImplFn e k).fetchOptional
      ∧ (pgImplFn e k).handle = ExecHandle.pgPool
      ∧ (pgImplFn e k).acquiresLock = false
      ∧ (txImplFn e k).handle = ExecHandle.lockedTx
      ∧ (txImplFn e k).acquiresLock = true
      ∧ (tokenStreamOf e).pg.fns = e.keys.map (pgImplFn e)
      ∧ (tokenStreamOf e).tx.fns = e.keys.map (txImplFn e) := by
  intro e k
  exact ⟨rfl, rfl, rfl, rfl, rfl, rfl, rfl, rfl, rfl, rfl⟩

/-- Claim C3: the direct-store implementation embeds, for each key group,
exactly the query `select * from <table> where <col_1> = $1 and ... and
<col_n> = $n` with 1-based positional placeholders in component order,
and binds the components' fields in that same order. -/
theorem c3_pg_query_matches_spec_select_template :
    ∀ (e : DeriveEntity) (k : Key),
      (pgImplFn e k).query
          = specSelectQuery e.table_name (k.components.map FieldColumn.column_name)
      ∧ (pgImplFn e k).binds = k.components.map (fun c => c.field_name)
      ∧ (pg_impl e pgPoolTy).fns = e.keys.map (pgImplFn e) := by
  intro e k
  refine ⟨?_, rfl, rfl⟩
  show pgQuery e k = _
  rw [pgQuery, specSelectQuery, pgWhereClause]
  rw [show k.components.enum = List.enumFrom 0 k.components from rfl]
  rw [enumFrom_placeholders k.components 0]

/-- Auxiliary: `any` of the projected flags of a tag group. -/
theorem anyMapSnd (l : List PK) :
    ((l.map (fun p => p.2)).any (fun p => p.2)) = l.any (fun p => p.2.2) := by
  induction l with
  | nil => rfl
  | cons p l ih => simp [ih]

/-- Claim C4: every key group's uniqueness flag is the boolean OR (`any`) of
the grouped components' unique flags, and each component's flag is its
field's declared `unique` argument defaulting to `false` when
unspecified. -/
theorem c4_group_unique_is_or_of_component_flags :
    (∀ (pks : List PK) (σ : List String) (k : Key), k ∈ keysOf pks σ →
        k.unique = (pks.filter (fun p => p.1 == k.name)).any (fun p => p.2.2))
    ∧ (∀ (fcMap : List (String × FieldColumn)) (f : RField) (n : String)
          (kn : Option String) (ku : Option Bool) (r : PK),
          f.ident = some n → f.keyArgs = KeyParse.parsed kn ku →
          pkOfField fcMap f = Except.ok (some r) → r.2.2 = ku.getD false) := by
  constructor
  · intro pks σ k hk
    simp only [keysOf, indexGroups, List.map_map, List.mem_map] at hk
    obtain ⟨kn, hkn, rfl⟩ := hk
    simpa using anyMapSnd (pks.filter (fun p => p.1 == kn))
  · intro fcMap f n kn ku r hid hka hpk
    cases hattr : f.hasKeyAttr with
    | false => simp [pkOfField, hattr] at hpk
    | true =>
        simp [pkOfField, hattr, hid, hka] at hpk
        rw [← hpk]

/-- Claim C4 witness: the composite key of `c4pks` (second component marked
unique) is unique, and a field with no `unique` argument contributes
flag `false`. -/
theorem c4_witness :
    ((Key.mk ("k") true [fcA, fcB]).unique
        = (c4pks.filter (fun p => p.1 == (Key.mk ("k") true [fcA, fcB]).name)).any
            (fun p => p.2.2))
    ∧ (((("c"), (mkFieldColumn ("c") c4f, false)) : PK).2.2
        = (none : Option Bool).getD false) :=
  ⟨c4_group_unique_is_or_of_component_flags.1 c4pks ["k"] (Key.mk ("k") true [fcA, fcB])
      (by decide),
   c4_group_unique_is_or_of_component_flags.2 [] c4f ("c") none none
      ((("c"), (mkFieldColumn ("c") c4f, false))) rfl rfl (by decide)⟩

/-- Claim C5: for every successful extraction whose key `HashMap` iteration
order is an admissible permutation of the distinct key names, the
generated interface has one operation per key group, named
`find_<snake entity>_by_<key name>` returning an optional single record
for unique groups and `list_<snake entity>_by_<key name>` returning a
sequence otherwise, and the operation count equals the number of
distinct key names among the key-tagged fields. -/
theorem c5_interface_one_op_per_key_name
    (input : DeriveInput) (colOrd keyOrd : List String)
    (e : DeriveEntity) (pks : List PK)
    (h1 : DeriveEntity.tryFrom input colOrd keyOrd = Except.ok e)
    (h2 : pksOfInput input = Except.ok pks)
    (h3 : List.Perm keyOrd (firstSeen (pks.map Prod.fst))) :
    (repo_trait e).fns = e.keys.map (KeyFn.new e)
    ∧ (∀ k ∈ e.keys,
        (KeyFn.new e k).fn_name
          = (if k.unique then ("find_") else ("list_"))
              ++ e.entity_snake_name ++ "_by_" ++ k.name
        ∧ (KeyFn.new e k).fn_rtn
          = (if k.unique then FnRtn.optionalOf e.entity else FnRtn.vecOf e.entity))
    ∧ (repo_trait e).fns.length = (firstSeen (pks.map Prod.fst)).length := by
  obtain ⟨parts, hx, he⟩ := tryFrom_ok_parts h1
  have hpks : pks = parts.2.2 := by
    rw [pksOfInput, hx] at h2
    simp only [Except.map] at h2
    exact (Except.ok.inj h2).symm
  refine ⟨rfl, ?_, ?_⟩
  · intro k hk
    constructor
    · cases hu : k.unique <;> simp [KeyFn.new, hu]
    · cases hu : k.unique <;> simp [KeyFn.new, hu]
  · have hlen : (repo_trait e).fns.length = keyOrd.length := by
      rw [he]
      simp [repo_trait, keysOf_length]
    rw [hlen]
    exact h3.length_eq

/-- Claim C5 witness: the interface generated for `exInput` under
declaration-order iteration. -/
theorem c5_witness :
    (repo_trait exEntity).fns = exEntity.keys.map (KeyFn.new exEntity)
    ∧ (∀ k ∈ exEntity.keys,
        (KeyFn.new exEntity k).fn_name
          = (if k.unique then ("find_") else ("list_"))
              ++ exEntity.entity_snake_name ++ "_by_" ++ k.name
        ∧ (KeyFn.new exEntity k).fn_rtn
          = (if k.unique then FnRtn.optionalOf exEntity.entity
             else FnRtn.vecOf exEntity.entity))
    ∧ (repo_trait exEntity).fns.length = (firstSeen (exPks.map Prod.fst)).length :=
  c5_interface_one_op_per_key_name exInput ["x", "y"] ["x", "y"] exEntity exPks
    (by decide) (by decide) (by decide)

/-- Claim C6 counterexample: the tuple-only declaration `struct Pair(i64);`
makes extraction fail, but with the darling shape error, not with
`StructRequired`: the `Data::Struct` test at lines 66-70 passes for a
tuple struct, and the failure comes from
`#[darling(supports(struct_named))]` at line 72. -/
theorem c6_counterexample_tuple_struct_fails_with_darling_error :
    DeriveEntity.tryFrom c6TupleInput [] [] = Except.error DeriveEntityError.darlingError
    ∧ DeriveEntityError.darlingError ≠ DeriveEntityError.structRequired :=
  ⟨by decide, by decide⟩

/-- Claim C6 amended: enum and union declarations fail extraction with
`StructRequired`; a tuple-only declaration also fails and produces no
output, but with the darling shape error instead. -/
theorem c6_amended_rejection_by_shape :
    ∀ (input : DeriveInput) (colOrd keyOrd : List String),
      ((input.data = Data.denum ∨ input.data = Data.dunion) →
        DeriveEntity.tryFrom input colOrd keyOrd
          = Except.error DeriveEntityError.structRequired)
      ∧ (∀ fs, input.data = Data.dstruct (Fields.funnamed fs) →
          DeriveEntity.tryFrom input colOrd keyOrd
            = Except.error DeriveEntityError.darlingError) := by
  intro input colOrd keyOrd
  constructor
  · intro h
    cases h with
    | inl h =>
        simp [DeriveEntity.tryFrom, extracted, h, Bind.bind, Except.bind]
    | inr h =>
        simp [DeriveEntity.tryFrom, extracted, h, Bind.bind, Except.bind]
  · intro fs h
    simp [DeriveEntity.tryFrom, extracted, h, DeriveInputArgs.fromDeriveInput,
      Bind.bind, Except.bind]

/-- Claim C6 amended witness: a concrete enum, union and tuple struct. -/
theorem c6_amended_witness :
    DeriveEntity.tryFrom c6EnumInput [] [] = Except.error DeriveEntityError.structRequired
    ∧ DeriveEntity.tryFrom c6UnionInput [] [] = Except.error DeriveEntityError.structRequired
    ∧ DeriveEntity.tryFrom c6TupleInput [] [] = Except.error DeriveEntityError.darlingError :=
  ⟨(c6_amended_rejection_by_shape c6EnumInput [] []).1 (Or.inl rfl),
   (c6_amended_rejection_by_shape c6UnionInput [] []).1 (Or.inr rfl),
   (c6_amended_rejection_by_shape c6TupleInput [] []).2 [c6TupleField] rfl⟩

/-- Claim C9 counterexample: the fully qualified type `std::string::String`
denotes the owned textual standard string, yet `map_type` leaves it
unchanged — its `get_ident` is `none` for a multi-segment path — so the
generated operation takes `&std::string::String`, a borrow of the owned
string, not the borrowed text-slice `&str`. -/
theorem c9_counterexample_qualified_string_not_mapped_to_str :
    specDenotesOwnedText tyStringQualified = true
    ∧ (KeyFn.new c9Entity c9Key).fn_args
        = [{ name := "s", borrowed := tyStringQualified }]
    ∧ tyStringQualified ≠ strTy :=
  ⟨by decide, by decide, by decide⟩

/-- Claim C9 amended: the exposure rule is syntactic, not semantic — a key
component's parameter type is the borrow of `map_type` of its declared
type, and `map_type` substitutes `str` exactly when the declared type
is a bare single-segment path (no leading colon, no generic arguments)
whose identifier ends with `String`; every other declared type,
including qualified spellings of the owned string type, is borrowed
unchanged. -/
theorem c9_amended_borrow_rule :
    ∀ (e : DeriveEntity) (k : Key) (c : FieldColumn), c ∈ k.components →
      ({ name := c.field_name, borrowed := map_type c.field_type } : FnArg)
          ∈ (KeyFn.new e k).fn_args
      ∧ map_type c.field_type
          = (if bareIdentEndsString c.field_type then strTy else c.field_type) := by
  intro e k c hc
  constructor
  · simp only [KeyFn.new, List.mem_map]
    exact ⟨c, hc, rfl⟩
  · exact map_type_eq_if c.field_type

/-- Claim C9 amended witness: the bare `String` component of `exKeyY`. -/
theorem c9_amended_witness :
    ({ name := fcYcol.field_name, borrowed := map_type fcYcol.field_type } : FnArg)
        ∈ (KeyFn.new exEntity exKeyY).fn_args
    ∧ map_type fcYcol.field_type
        = (if bareIdentEndsString fcYcol.field_type then strTy else fcYcol.field_type) :=
  c9_amended_borrow_rule exEntity exKeyY fcYcol (by decide)

/-- Claim C10: removing a malformed `#[column]` attribute changes nothing in
extraction — the parse failure is discarded by the `.ok()` at line 141
and never surfaces as an error — and the column name of a field whose
`#[column]` arguments fail to parse falls back to the field's own
identifier, exactly as if no column annotation were present. -/
theorem c10_malformed_column_attr_silently_ignored :
    (∀ (input : DeriveInput) (colOrd keyOrd : List String),
        DeriveEntity.tryFrom input.scrub colOrd keyOrd
          = DeriveEntity.tryFrom input colOrd keyOrd)
    ∧ (∀ (f : RField) (n : String), f.columnAttr = ColumnParse.malformed →
        mkFieldColumn n f
          = { field_name := n, field_type := f.ty, column_name := n }) := by
  constructor
  · intro input colOrd keyOrd
    rw [DeriveEntity.tryFrom, DeriveEntity.tryFrom, extracted_scrub]
    simp [DeriveInput.scrub]
  · intro f n h
    simp [mkFieldColumn, Column.fromField, h, Except.toOption]

/-- Claim C10 witness: the declaration `c10Input` carrying a malformed
`#[column]` attribute. -/
theorem c10_witness :
    DeriveEntity.tryFrom c10Input.scrub ["c"] []
        = DeriveEntity.tryFrom c10Input ["c"] []
    ∧ mkFieldColumn ("c") c10Field
        = { field_name := "c", field_type := c10Field.ty, column_name := "c" } :=
  ⟨c10_malformed_column_attr_silently_ignored.1 c10Input ["c"] [],
   c10_malformed_column_attr_silently_ignored.2 c10Field ("c") rfl⟩
